import Mathlib

/-!
Shallow embedding of the pharmacy-management backend (`src/app.py`).

The store (four SQLAlchemy tables) is a record of lists; each API route
becomes a pure function from a `DB` and its request parameters to a
result (`Except ApiError _`) together with the post state.  Request
fields that Python reads with `data.get(...)` are `Option`s; Python's
truthiness test `not data.get(k)` is `= none ∨ = some ""` for strings
and `= none ∨ ≤ 0` for the quantity (`0` is falsy, and the route also
checks `<= 0`).  `filter_by(...).first()` is `List.find?`; mutating the
object returned by `first()` is replacing the first match in the list
(`replaceFirst`); `session.delete(row)` removes that row
(`eraseFirst`); `query.filter_by(...).delete()` removes every match
(`List.filter` with the negated predicate).  Prices are modelled as
exact rationals, stock and quantity as integers (the columns are
unconstrained `Integer`s, so negative values are representable).
-/

namespace Hospital

structure Drug where
  drug_name : String
  price : ℚ
  stock : Int
  deriving Repr, DecidableEq

structure Doctor where
  doctor_id : String
  doctor_name : String
  deriving Repr, DecidableEq

structure Prescription where
  prescription_id : String
  doctor_id : String
  total_fee : ℚ
  deriving Repr, DecidableEq

structure PrescriptionDetail where
  id : Nat
  prescription_id : String
  drug_name : String
  quantity : Int
  price : ℚ
  deriving Repr, DecidableEq

/-- The persistent store: the four tables, plus the autoincrement counter
behind `PrescriptionDetail.id`. -/
structure DB where
  drugs : List Drug
  doctors : List Doctor
  prescriptions : List Prescription
  details : List PrescriptionDetail
  nextDetailId : Nat
  deriving Repr, DecidableEq

/-- The failure kinds the routes return (each distinct error branch of the
source maps to one constructor). -/
inductive ApiError where
  | duplicateKey
  | notFound
  | invalidInput
  | invalidReference
  | insufficientStock (current : Int)
  | conflict (count : Nat)
  deriving Repr, DecidableEq

/-- Replace the first element satisfying `p` (mutating the row returned by
`filter_by(...).first()`). -/
def replaceFirst (p : α → Bool) (f : α → α) : List α → List α
  | [] => []
  | x :: xs => if p x then f x :: xs else x :: replaceFirst p f xs

/-- Remove the first element satisfying `p` (`db.session.delete(row)` on the
row returned by `first()`). -/
def eraseFirst (p : α → Bool) : List α → List α
  | [] => []
  | x :: xs => if p x then xs else x :: eraseFirst p xs

def findDrug (db : DB) (name : String) : Option Drug :=
  db.drugs.find? (fun d => d.drug_name == name)

def findDoctor (db : DB) (id : String) : Option Doctor :=
  db.doctors.find? (fun d => d.doctor_id == id)

def findPrescription (db : DB) (pid : String) : Option Prescription :=
  db.prescriptions.find? (fun p => p.prescription_id == pid)

/-- `POST /api/drugs`.  The duplicate-key `IntegrityError` that the primary
key raises at commit is the pre-check on the key. -/
def add_drug (db : DB) (name : String) (price : ℚ) (stock : Int) :
    Except ApiError Drug × DB :=
  match findDrug db name with
  | some _ => (.error .duplicateKey, db)
  | none =>
    let d : Drug := ⟨name, price, stock⟩
    (.ok d, { db with drugs := db.drugs ++ [d] })

/-- `PUT /api/drugs/<drug_name>`: partial update, a field is written only
when the request supplies it. -/
def update_drug (db : DB) (name : String) (newPrice : Option ℚ)
    (newStock : Option Int) : Except ApiError Drug × DB :=
  match findDrug db name with
  | none => (.error .notFound, db)
  | some drug =>
    let f : Drug → Drug := fun d =>
      { d with price := newPrice.getD d.price, stock := newStock.getD d.stock }
    (.ok (f drug),
     { db with drugs := replaceFirst (fun d => d.drug_name == name) f db.drugs })

/-- `DELETE /api/drugs/<drug_name>`: refused while any detail references the
drug, reporting the count of referencing details. -/
def delete_drug (db : DB) (name : String) : Except ApiError Unit × DB :=
  match findDrug db name with
  | none => (.error .notFound, db)
  | some _ =>
    let deps := db.details.filter (fun d => d.drug_name == name)
    if deps.isEmpty then
      (.ok (), { db with drugs := eraseFirst (fun d => d.drug_name == name) db.drugs })
    else
      (.error (.conflict deps.length), db)

/-- `POST /api/doctors`. -/
def add_doctor (db : DB) (id nm : String) : Except ApiError Doctor × DB :=
  match findDoctor db id with
  | some _ => (.error .duplicateKey, db)
  | none =>
    let d : Doctor := ⟨id, nm⟩
    (.ok d, { db with doctors := db.doctors ++ [d] })

/-- `PUT /api/doctors/<doctor_id>`. -/
def update_doctor (db : DB) (id : String) (newName : Option String) :
    Except ApiError Doctor × DB :=
  match findDoctor db id with
  | none => (.error .notFound, db)
  | some doc =>
    let f : Doctor → Doctor := fun d => { d with doctor_name := newName.getD d.doctor_name }
    (.ok (f doc),
     { db with doctors := replaceFirst (fun d => d.doctor_id == id) f db.doctors })

/-- `DELETE /api/doctors/<doctor_id>`: refused while any prescription
references the doctor, reporting the count. -/
def delete_doctor (db : DB) (id : String) : Except ApiError Unit × DB :=
  match findDoctor db id with
  | none => (.error .notFound, db)
  | some _ =>
    let deps := db.prescriptions.filter (fun p => p.doctor_id == id)
    if deps.isEmpty then
      (.ok (), { db with doctors := eraseFirst (fun d => d.doctor_id == id) db.doctors })
    else
      (.error (.conflict deps.length), db)

/-- `POST /api/prescriptions`: required-field checks (`not data.get(...)`),
then the duplicate check, then the doctor existence check. -/
def add_prescription (db : DB) (pid did : Option String) :
    Except ApiError Prescription × DB :=
  match pid with
  | none => (.error .invalidInput, db)
  | some pid =>
    if pid = "" then (.error .invalidInput, db)
    else match did with
    | none => (.error .invalidInput, db)
    | some did =>
      if did = "" then (.error .invalidInput, db)
      else match findPrescription db pid with
      | some _ => (.error .duplicateKey, db)
      | none =>
        match findDoctor db did with
        | none => (.error .invalidReference, db)
        | some _ =>
          let p : Prescription := ⟨pid, did, 0⟩
          (.ok p, { db with prescriptions := db.prescriptions ++ [p] })

/-- `DELETE /api/prescriptions/<prescription_id>`: deletes every detail of
the prescription (`query.filter_by(...).delete()`), then the prescription,
in one commit. -/
def delete_prescription (db : DB) (pid : String) : Except ApiError Unit × DB :=
  match findPrescription db pid with
  | none => (.error .notFound, db)
  | some _ =>
    (.ok (),
     { db with
       details := db.details.filter (fun d => !(d.prescription_id == pid)),
       prescriptions := eraseFirst (fun p => p.prescription_id == pid) db.prescriptions })

/-- `GET /api/prescriptions/<prescription_id>/details`: no existence check on
the prescription, just the filtered list. -/
def get_prescription_details (db : DB) (pid : String) : List PrescriptionDetail :=
  db.details.filter (fun d => d.prescription_id == pid)

/-- `POST /api/prescriptions/<prescription_id>/details`: field validation,
referential checks, stock check, then insert the detail (price snapshotted
from the drug) and decrement the stock in one commit. -/
def add_prescription_detail (db : DB) (pid : String) (drugName : Option String)
    (quantity : Option Int) : Except ApiError PrescriptionDetail × DB :=
  match drugName with
  | none => (.error .invalidInput, db)
  | some dn =>
    if dn = "" then (.error .invalidInput, db)
    else match quantity with
    | none => (.error .invalidInput, db)
    | some q =>
      if q ≤ 0 then (.error .invalidInput, db)
      else match findPrescription db pid with
      | none => (.error .invalidReference, db)
      | some _ =>
        match findDrug db dn with
        | none => (.error .invalidReference, db)
        | some drug =>
          if drug.stock < q then (.error (.insufficientStock drug.stock), db)
          else
            let det : PrescriptionDetail := ⟨db.nextDetailId, pid, dn, q, drug.price⟩
            let ds := replaceFirst (fun d => d.drug_name == dn)
              (fun d => { d with stock := d.stock - q }) db.drugs
            (.ok det,
             { db with
               details := db.details ++ [det],
               drugs := ds,
               nextDetailId := db.nextDetailId + 1 })

/-- The fee the calculate route computes:
`sum(detail.quantity * detail.price for detail in details)` over the
prescription's details. -/
def prescriptionTotal (db : DB) (pid : String) : ℚ :=
  ((db.details.filter (fun d => d.prescription_id == pid)).map
    (fun d => (d.quantity : ℚ) * d.price)).sum

/-- `POST /api/prescriptions/<prescription_id>/calculate`: recompute the
total from the current details, persist it on the prescription, return it. -/
def calculate_prescription (db : DB) (pid : String) : Except ApiError ℚ × DB :=
  match findPrescription db pid with
  | none => (.error .notFound, db)
  | some _ =>
    let t := prescriptionTotal db pid
    let ps := replaceFirst (fun p => p.prescription_id == pid)
      (fun p => { p with total_fee := t }) db.prescriptions
    (.ok t, { db with prescriptions := ps })

/-- One invocation of the unit of work wrapped by `execute_with_retry`:
it returns, raises an `OperationalError` whose message contains
"Lost connection to MySQL server" (`transient`), or raises anything else
(`fatal`, tagged by a string identifying the exception). -/
inductive Outcome (α : Type) where
  | ok (a : α)
  | transient
  | fatal (e : String)
  deriving Repr, DecidableEq

/-- The `for attempt in range(max_retries)` loop of `execute_with_retry`,
with `remaining = max_retries - attempt` iterations left.  The result
carries the outcome surfaced, the number of invocations of `func`, and the
total time slept (`delay` per retry).  `none` is the fall-through when the
loop body never runs (`max_retries = 0`). -/
def retryAux (func : Nat → Outcome α) (delay attempt : Nat) :
    Nat → Option (Outcome α × Nat × Nat)
  | 0 => none
  | remaining + 1 =>
    match func attempt with
    | .ok a => some (.ok a, attempt + 1, delay * attempt)
    | .fatal e => some (.fatal e, attempt + 1, delay * attempt)
    | .transient =>
      if remaining = 0 then some (.transient, attempt + 1, delay * attempt)
      else retryAux func delay (attempt + 1) remaining

/-- `execute_with_retry(func, max_retries, delay)`; the source calls it with
the defaults `max_retries=3, delay=2`. -/
def execute_with_retry (func : Nat → Outcome α) (max_retries delay : Nat) :
    Option (Outcome α × Nat × Nat) :=
  retryAux func delay 0 max_retries

/-- The stock invariant of the spec: every drug row's stock is non-negative. -/
def StocksNonneg (db : DB) : Prop := ∀ d ∈ db.drugs, 0 ≤ d.stock

/-- A small concrete store used by the witnesses: one drug, one doctor, one
prescription with one detail. -/
def dbW : DB :=
  ⟨[⟨"Aspirin", 2, 10⟩], [⟨"D1", "Alice"⟩], [⟨"P1", "D1", 0⟩],
    [⟨1, "P1", "Aspirin", 4, 2⟩], 2⟩

theorem eraseFirst_cons_pos {p : α → Bool} {a : α} (t : List α) (h : p a = true) :
    eraseFirst p (a :: t) = t := by
  simp [eraseFirst, h]

theorem eraseFirst_cons_neg {p : α → Bool} {a : α} (t : List α) (h : p a = false) :
    eraseFirst p (a :: t) = a :: eraseFirst p t := by
  simp [eraseFirst, h]

theorem replaceFirst_cons_pos {p : α → Bool} {f : α → α} {a : α} (t : List α)
    (h : p a = true) : replaceFirst p f (a :: t) = f a :: t := by
  simp [replaceFirst, h]

theorem replaceFirst_cons_neg {p : α → Bool} {f : α → α} {a : α} (t : List α)
    (h : p a = false) : replaceFirst p f (a :: t) = a :: replaceFirst p f t := by
  simp [replaceFirst, h]

theorem mem_of_mem_eraseFirst {p : α → Bool} {l : List α} {x : α} :
    x ∈ eraseFirst p l → x ∈ l := by
  induction l with
  | nil => intro h; simp [eraseFirst] at h
  | cons a t ih =>
    intro h
    cases hpa : p a with
    | true =>
      rw [eraseFirst_cons_pos t hpa] at h
      exact List.mem_cons_of_mem _ h
    | false =>
      rw [eraseFirst_cons_neg t hpa, List.mem_cons] at h
      rcases h with h | h
      · simp [h]
      · exact List.mem_cons_of_mem _ (ih h)

theorem mem_eraseFirst_iff {p : α → Bool} {l : List α}
    (hu : l.Pairwise (fun a b => ¬(p a = true ∧ p b = true))) (x : α) :
    x ∈ eraseFirst p l ↔ x ∈ l ∧ p x = false := by
  induction l with
  | nil => simp [eraseFirst]
  | cons a t ih =>
    rcases List.pairwise_cons.mp hu with ⟨ha, ht⟩
    cases hpa : p a with
    | true =>
      rw [eraseFirst_cons_pos t hpa, List.mem_cons]
      constructor
      · intro hx
        refine ⟨Or.inr hx, ?_⟩
        have hax := ha x hx
        rw [hpa] at hax
        simpa using hax
      · rintro ⟨hx | hx, hpx⟩
        · rw [hx, hpa] at hpx; cases hpx
        · exact hx
    | false =>
      rw [eraseFirst_cons_neg t hpa, List.mem_cons, List.mem_cons, ih ht]
      constructor
      · rintro (hx | ⟨hx, hpx⟩)
        · exact ⟨Or.inl hx, by rw [hx, hpa]⟩
        · exact ⟨Or.inr hx, hpx⟩
      · rintro ⟨hx | hx, hpx⟩
        · exact Or.inl hx
        · exact Or.inr ⟨hx, hpx⟩

theorem mem_replaceFirst {p : α → Bool} {f : α → α} {l : List α} {x : α} :
    x ∈ replaceFirst p f l → x ∈ l ∨ ∃ a, l.find? p = some a ∧ x = f a := by
  induction l with
  | nil => intro h; simp [replaceFirst] at h
  | cons a t ih =>
    intro h
    cases hpa : p a with
    | true =>
      rw [replaceFirst_cons_pos t hpa, List.mem_cons] at h
      rcases h with h | h
      · exact Or.inr ⟨a, List.find?_cons_of_pos _ hpa, h⟩
      · exact Or.inl (List.mem_cons_of_mem _ h)
    | false =>
      rw [replaceFirst_cons_neg t hpa, List.mem_cons] at h
      rcases h with h | h
      · exact Or.inl (by simp [h])
      · rcases ih h with h' | ⟨b, hb, hx⟩
        · exact Or.inl (List.mem_cons_of_mem _ h')
        · refine Or.inr ⟨b, ?_, hx⟩
          rw [List.find?_cons_of_neg _ (by simp [hpa])]
          exact hb

theorem find?_replaceFirst {p : α → Bool} {f : α → α} {l : List α} {a : α}
    (h : l.find? p = some a) (hfa : p (f a) = true) :
    (replaceFirst p f l).find? p = some (f a) := by
  induction l with
  | nil => simp [List.find?] at h
  | cons b t ih =>
    cases hpb : p b with
    | true =>
      rw [List.find?_cons_of_pos _ hpb] at h
      injection h with h
      subst h
      rw [replaceFirst_cons_pos t hpb]
      exact List.find?_cons_of_pos _ hfa
    | false =>
      rw [List.find?_cons_of_neg _ (by simp [hpb])] at h
      rw [replaceFirst_cons_neg t hpb]
      rw [List.find?_cons_of_neg _ (by simp [hpb])]
      exact ih h

theorem replaceFirst_replaceFirst {p : α → Bool} {f : α → α} {l : List α}
    (hp : ∀ a, p (f a) = p a) (hf : ∀ a, f (f a) = f a) :
    replaceFirst p f (replaceFirst p f l) = replaceFirst p f l := by
  induction l with
  | nil => rfl
  | cons a t ih =>
    cases hpa : p a with
    | true =>
      rw [replaceFirst_cons_pos t hpa,
        replaceFirst_cons_pos t (by rw [hp a]; exact hpa), hf a]
    | false =>
      rw [replaceFirst_cons_neg t hpa, replaceFirst_cons_neg _ hpa, ih]

/-- C7: when the drug name is absent, or the quantity is absent or `≤ 0`,
`add_prescription_detail` fails with the validation error and the store is
unchanged, whether or not the referenced prescription or drug exists. -/
theorem C7_validation_rejects_before_store (db : DB) (pid : String)
    (dn? : Option String) (q? : Option Int)
    (h : dn? = none ∨ q? = none ∨ ∃ q, q? = some q ∧ q ≤ 0) :
    (add_prescription_detail db pid dn? q?).1 = .error .invalidInput ∧
    (add_prescription_detail db pid dn? q?).2 = db := by
  rcases h with h | h | ⟨q, hq, hq0⟩
  · subst h; exact ⟨rfl, rfl⟩
  · subst h
    cases dn? with
    | none => exact ⟨rfl, rfl⟩
    | some dn =>
      by_cases hdn : dn = ""
      · simp [add_prescription_detail, hdn]
      · simp [add_prescription_detail, hdn]
  · subst hq
    cases dn? with
    | none => exact ⟨rfl, rfl⟩
    | some dn =>
      by_cases hdn : dn = ""
      · simp [add_prescription_detail, hdn]
      · simp [add_prescription_detail, hdn, hq0]

theorem C7_witness :
    (add_prescription_detail dbW "P1" (some "Aspirin") (some 0)).1 =
      .error .invalidInput ∧
    (add_prescription_detail dbW "P1" (some "Aspirin") (some 0)).2 = dbW :=
  C7_validation_rejects_before_store dbW "P1" (some "Aspirin") (some 0)
    (Or.inr (Or.inr ⟨0, rfl, le_refl 0⟩))

/-- C10: listing a prescription's details performs no existence check on the
prescription: for every id — also one naming no prescription — it succeeds
and returns exactly the details carrying that prescription_id. -/
theorem C10_list_details_total (db : DB) (pid : String) :
    (∀ d, d ∈ get_prescription_details db pid ↔
      d ∈ db.details ∧ d.prescription_id = pid) ∧
    (findPrescription db pid = none →
      ∀ d, d ∈ get_prescription_details db pid ↔
        d ∈ db.details ∧ d.prescription_id = pid) := by
  have key : ∀ d, d ∈ get_prescription_details db pid ↔
      d ∈ db.details ∧ d.prescription_id = pid := by
    intro d
    simp [get_prescription_details, List.mem_filter]
  exact ⟨key, fun _ => key⟩

/-- C6: a detail's price is snapshotted from `Drug.price` at insertion time,
and `update_drug` leaves every existing detail (and the prescriptions) intact,
so a later total computed by `calculate_prescription` uses the stored price,
not the updated drug price. -/
theorem C6_price_snapshot_and_update_frame (db : DB) (name : String)
    (p? : Option ℚ) (s? : Option Int) :
    (update_drug db name p? s?).2.details = db.details ∧
    (update_drug db name p? s?).2.prescriptions = db.prescriptions ∧
    (update_drug db name p? s?).2.doctors = db.doctors ∧
    (∀ pid, prescriptionTotal (update_drug db name p? s?).2 pid =
      prescriptionTotal db pid) ∧
    (∀ pid, (calculate_prescription (update_drug db name p? s?).2 pid).1 =
      (calculate_prescription db pid).1) ∧
    (∀ pid dn q det db2,
      add_prescription_detail db pid (some dn) (some q) = (.ok det, db2) →
      ∃ drug, findDrug db dn = some drug ∧ det.price = drug.price ∧
        db2.details = db.details ++ [det]) := by
  have hframe : (update_drug db name p? s?).2.details = db.details ∧
      (update_drug db name p? s?).2.prescriptions = db.prescriptions ∧
      (update_drug db name p? s?).2.doctors = db.doctors := by
    cases hfd : findDrug db name with
    | none => simp [update_drug, hfd]
    | some drug => simp [update_drug, hfd]
  obtain ⟨hdet, hpres, hdoc⟩ := hframe
  have htot : ∀ pid, prescriptionTotal (update_drug db name p? s?).2 pid =
      prescriptionTotal db pid := by
    intro pid
    rw [prescriptionTotal, prescriptionTotal, hdet]
  refine ⟨hdet, hpres, hdoc, htot, ?_, ?_⟩
  · intro pid
    rw [calculate_prescription, calculate_prescription, findPrescription,
      findPrescription, hpres]
    cases hfp : db.prescriptions.find? (fun p => p.prescription_id == pid) with
    | none => rfl
    | some p0 => simp [htot pid]
  · intro pid dn q det db2 h
    by_cases hdn : dn = ""
    · simp [add_prescription_detail, hdn] at h
    · by_cases hq : q ≤ 0
      · simp [add_prescription_detail, hdn, hq] at h
      · cases hfp : findPrescription db pid with
        | none => simp [add_prescription_detail, hdn, hq, hfp] at h
        | some presc =>
          cases hfd : findDrug db dn with
          | none => simp [add_prescription_detail, hdn, hq, hfp, hfd] at h
          | some drug =>
            by_cases hst : drug.stock < q
            · simp [add_prescription_detail, hdn, hq, hfp, hfd, hst] at h
            · simp only [add_prescription_detail, hdn, hq, hfp, hfd, hst,
                if_false, if_neg, Prod.mk.injEq] at h
              obtain ⟨h1, h2⟩ := h
              refine ⟨drug, rfl, ?_, ?_⟩
              · cases h1; rfl
              · cases h1; cases h2; rfl

/-- C2: `calculate_prescription` fails with NotFound exactly when no
prescription with the given id exists (leaving the store unchanged);
otherwise it returns and persists as `total_fee` the sum over the
prescription's current details of quantity times the stored price,
`0` when there are no details. -/
theorem C2_calculate_total (db : DB) (pid : String) :
    ((calculate_prescription db pid).1 = .error .notFound ↔
      findPrescription db pid = none) ∧
    (findPrescription db pid = none → (calculate_prescription db pid).2 = db) ∧
    (∀ p, findPrescription db pid = some p →
      (calculate_prescription db pid).1 = .ok (prescriptionTotal db pid) ∧
      findPrescription (calculate_prescription db pid).2 pid =
        some { p with total_fee := prescriptionTotal db pid } ∧
      (calculate_prescription db pid).2.details = db.details ∧
      (calculate_prescription db pid).2.drugs = db.drugs ∧
      (calculate_prescription db pid).2.doctors = db.doctors) ∧
    (db.details.filter (fun d => d.prescription_id == pid) = [] →
      prescriptionTotal db pid = 0) := by
  refine ⟨?_, ?_, ?_, ?_⟩
  · cases hfp : findPrescription db pid with
    | none => simp [calculate_prescription, hfp]
    | some p0 => simp [calculate_prescription, hfp]
  · intro hfp
    simp [calculate_prescription, hfp]
  · intro p hp
    have hkey : (({ p with total_fee := prescriptionTotal db pid } :
        Prescription).prescription_id == pid) = true := by
      simpa using List.find?_some hp
    refine ⟨by simp [calculate_prescription, hp], ?_, by simp [calculate_prescription, hp],
      by simp [calculate_prescription, hp], by simp [calculate_prescription, hp]⟩
    have hp' : db.prescriptions.find? (fun x => x.prescription_id == pid) = some p := hp
    simp only [calculate_prescription, findPrescription, hp']
    exact find?_replaceFirst
      (f := fun x => { x with total_fee := prescriptionTotal db pid }) hp' hkey
  · intro hf
    rw [prescriptionTotal, hf]
    rfl

theorem prescriptionTotal_set_prescriptions (db : DB) (l : List Prescription)
    (pid : String) :
    prescriptionTotal { db with prescriptions := l } pid = prescriptionTotal db pid :=
  rfl

/-- C9: recomputing a prescription's total twice with no intervening change
returns the same value both times and the state after the second call equals
the state after the first. -/
theorem C9_calculate_idempotent (db : DB) (pid : String) :
    (calculate_prescription (calculate_prescription db pid).2 pid).1 =
      (calculate_prescription db pid).1 ∧
    (calculate_prescription (calculate_prescription db pid).2 pid).2 =
      (calculate_prescription db pid).2 := by
  cases hfp : findPrescription db pid with
  | none => simp [calculate_prescription, hfp]
  | some p0 =>
    have hkey : (({ p0 with total_fee := prescriptionTotal db pid } :
        Prescription).prescription_id == pid) = true := by
      simpa using List.find?_some hfp
    have hfp' : db.prescriptions.find? (fun x => x.prescription_id == pid) =
        some p0 := hfp
    have hrep := find?_replaceFirst
      (p := fun x : Prescription => x.prescription_id == pid)
      (f := fun x => { x with total_fee := prescriptionTotal db pid }) hfp' hkey
    have hidem := replaceFirst_replaceFirst
      (p := fun x : Prescription => x.prescription_id == pid)
      (f := fun x => { x with total_fee := prescriptionTotal db pid })
      (l := db.prescriptions) (fun a => rfl) (fun a => rfl)
    constructor
    · simp [calculate_prescription, hfp', findPrescription,
        prescriptionTotal_set_prescriptions, hrep]
    · simp [calculate_prescription, hfp', findPrescription,
        prescriptionTotal_set_prescriptions, hrep, hidem]

/-- C1: with the prescription and the drug present and a positive quantity,
`add_prescription_detail` succeeds exactly when the quantity does not exceed
the drug's current stock; on success it appends the one new detail row (its
price snapshotted from the drug) and that drug's stock becomes the old stock
minus the quantity; on insufficient stock it fails with that error and the
store is completely unchanged. -/
theorem C1_add_detail_stock (db : DB) (pid dn : String) (q : Int)
    (presc : Prescription) (drug : Drug)
    (hp : findPrescription db pid = some presc)
    (hd : findDrug db dn = some drug)
    (hdn : dn ≠ "") (hq : 0 < q) :
    ((∃ det, (add_prescription_detail db pid (some dn) (some q)).1 = .ok det) ↔
      q ≤ drug.stock) ∧
    (q ≤ drug.stock →
      (add_prescription_detail db pid (some dn) (some q)).1 =
        .ok ⟨db.nextDetailId, pid, dn, q, drug.price⟩ ∧
      (add_prescription_detail db pid (some dn) (some q)).2.details =
        db.details ++ [⟨db.nextDetailId, pid, dn, q, drug.price⟩] ∧
      findDrug (add_prescription_detail db pid (some dn) (some q)).2 dn =
        some { drug with stock := drug.stock - q } ∧
      (∀ d ∈ (add_prescription_detail db pid (some dn) (some q)).2.drugs,
        d.drug_name ≠ dn → d ∈ db.drugs) ∧
      (add_prescription_detail db pid (some dn) (some q)).2.doctors =
        db.doctors ∧
      (add_prescription_detail db pid (some dn) (some q)).2.prescriptions =
        db.prescriptions) ∧
    (drug.stock < q →
      (add_prescription_detail db pid (some dn) (some q)).1 =
        .error (.insufficientStock drug.stock) ∧
      (add_prescription_detail db pid (some dn) (some q)).2 = db) := by
  have hq0 : ¬ q ≤ 0 := not_le.mpr hq
  by_cases hst : drug.stock < q
  · have hnle : ¬ q ≤ drug.stock := not_le.mpr hst
    refine ⟨?_, fun hle => absurd hle hnle, fun _ => ?_⟩
    · constructor
      · rintro ⟨det, hdet⟩
        simp [add_prescription_detail, hdn, hq0, hp, hd, hst] at hdet
      · intro hle
        exact absurd hle hnle
    · constructor <;> simp [add_prescription_detail, hdn, hq0, hp, hd, hst]
  · have hle : q ≤ drug.stock := not_lt.mp hst
    have hd' : db.drugs.find? (fun x => x.drug_name == dn) = some drug := hd
    have hkey : (({ drug with stock := drug.stock - q } : Drug).drug_name == dn) =
        true := by
      simpa using List.find?_some hd'
    have hrep := find?_replaceFirst
      (p := fun x : Drug => x.drug_name == dn)
      (f := fun x => { x with stock := x.stock - q }) hd' hkey
    refine ⟨?_, fun _ => ?_, fun hlt => absurd hlt hst⟩
    · constructor
      · intro _
        exact hle
      · intro _
        exact ⟨⟨db.nextDetailId, pid, dn, q, drug.price⟩,
          by simp [add_prescription_detail, hdn, hq0, hp, hd, hst]⟩
    · refine ⟨by simp [add_prescription_detail, hdn, hq0, hp, hd, hst],
        by simp [add_prescription_detail, hdn, hq0, hp, hd, hst], ?_, ?_,
        by simp [add_prescription_detail, hdn, hq0, hp, hd, hst],
        by simp [add_prescription_detail, hdn, hq0, hp, hd, hst]⟩
      · have hsimp : (add_prescription_detail db pid (some dn) (some q)).2.drugs =
            replaceFirst (fun x => x.drug_name == dn)
              (fun x => { x with stock := x.stock - q }) db.drugs := by
          simp [add_prescription_detail, hdn, hq0, hp, hd, hst]
        rw [findDrug, hsimp]
        simpa using hrep
      · intro d hdmem hne
        simp only [add_prescription_detail, hdn, hq0, hp, hd, hst, if_neg] at hdmem
        rcases mem_replaceFirst hdmem with hmem | ⟨a, ha, hx⟩
        · exact hmem
        · rw [hd'] at ha
          injection ha with ha
          subst ha
          have hnm : d.drug_name = dn := by
            rw [hx]
            simpa using List.find?_some hd'
          exact absurd hnm hne

theorem C1_witness :
    (add_prescription_detail dbW "P1" (some "Aspirin") (some 4)).1 =
      .ok ⟨2, "P1", "Aspirin", 4, 2⟩ ∧
    findDrug (add_prescription_detail dbW "P1" (some "Aspirin") (some 4)).2
      "Aspirin" = some ⟨"Aspirin", 2, 6⟩ := by
  have h := C1_add_detail_stock dbW "P1" "Aspirin" 4 ⟨"P1", "D1", 0⟩
    ⟨"Aspirin", 2, 10⟩ (by decide) (by decide) (by decide) (by decide)
  obtain ⟨-, h2, -⟩ := h
  have h3 := h2 (by decide)
  exact ⟨h3.1, h3.2.2.1⟩

/-- C3: deleting a prescription fails with NotFound (state unchanged) exactly
when the id names no prescription; otherwise it removes the prescription and
every detail carrying that id in one step: the subsequent detail listing for
that id is empty, no detail row references the id any more, and the other
tables are untouched. -/
theorem C3_delete_prescription_cascade (db : DB) (pid : String)
    (hu : db.prescriptions.Pairwise
      (fun a b => a.prescription_id ≠ b.prescription_id)) :
    ((delete_prescription db pid).1 = .error .notFound ↔
      findPrescription db pid = none) ∧
    (findPrescription db pid = none → (delete_prescription db pid).2 = db) ∧
    (∀ p, findPrescription db pid = some p →
      (delete_prescription db pid).1 = .ok () ∧
      findPrescription (delete_prescription db pid).2 pid = none ∧
      get_prescription_details (delete_prescription db pid).2 pid = [] ∧
      (∀ d, d ∈ (delete_prescription db pid).2.details ↔
        d ∈ db.details ∧ d.prescription_id ≠ pid) ∧
      (∀ x, x ∈ (delete_prescription db pid).2.prescriptions ↔
        x ∈ db.prescriptions ∧ x.prescription_id ≠ pid) ∧
      (delete_prescription db pid).2.drugs = db.drugs ∧
      (delete_prescription db pid).2.doctors = db.doctors) := by
  have hu' : db.prescriptions.Pairwise (fun a b =>
      ¬((a.prescription_id == pid) = true ∧ (b.prescription_id == pid) = true)) := by
    refine hu.imp ?_
    intro a b hab ⟨ha, hb⟩
    exact hab (by rw [eq_of_beq ha, eq_of_beq hb])
  refine ⟨?_, ?_, ?_⟩
  · cases hfp : findPrescription db pid with
    | none => simp [delete_prescription, hfp]
    | some p0 => simp [delete_prescription, hfp]
  · intro hfp
    simp [delete_prescription, hfp]
  · intro p hp
    have hpresmem : ∀ x, x ∈ (delete_prescription db pid).2.prescriptions ↔
        x ∈ db.prescriptions ∧ x.prescription_id ≠ pid := by
      intro x
      simp only [delete_prescription, hp]
      rw [mem_eraseFirst_iff hu' x]
      constructor
      · rintro ⟨hx, hpx⟩
        refine ⟨hx, fun he => ?_⟩
        rw [he] at hpx
        simp at hpx
      · rintro ⟨hx, hne⟩
        refine ⟨hx, ?_⟩
        cases hbx : (x.prescription_id == pid) with
        | false => rfl
        | true => exact absurd (eq_of_beq hbx) hne
    have hdetmem : ∀ d, d ∈ (delete_prescription db pid).2.details ↔
        d ∈ db.details ∧ d.prescription_id ≠ pid := by
      intro d
      simp [delete_prescription, hp, List.mem_filter]
    refine ⟨by simp [delete_prescription, hp], ?_, ?_, hdetmem, hpresmem,
      by simp [delete_prescription, hp], by simp [delete_prescription, hp]⟩
    · rw [findPrescription, List.find?_eq_none]
      intro x hx
      have := (hpresmem x).mp hx
      intro hbx
      exact this.2 (eq_of_beq hbx)
    · rw [List.eq_nil_iff_forall_not_mem]
      intro d hdm
      rw [get_prescription_details, List.mem_filter] at hdm
      have h1 := (hdetmem d).mp hdm.1
      exact h1.2 (eq_of_beq hdm.2)

theorem C3_witness :
    findPrescription (delete_prescription dbW "P1").2 "P1" = none ∧
    get_prescription_details (delete_prescription dbW "P1").2 "P1" = [] := by
  have h := C3_delete_prescription_cascade dbW "P1" (by decide)
  have h3 := h.2.2 ⟨"P1", "D1", 0⟩ (by decide)
  exact ⟨h3.2.1, h3.2.2.1⟩

/-- C4: deleting an existing drug is refused with Conflict carrying the exact
count of details referencing it when that count is at least one (store
unchanged), and an existing doctor likewise with the count of referencing
prescriptions; with no dependents each deletion succeeds and removes exactly
the one row, touching nothing else. -/
theorem C4_deletion_guard (db : DB) (name did : String) (drug : Drug)
    (doc : Doctor)
    (hd : findDrug db name = some drug)
    (hc : findDoctor db did = some doc)
    (hud : db.drugs.Pairwise (fun a b => a.drug_name ≠ b.drug_name))
    (huc : db.doctors.Pairwise (fun a b => a.doctor_id ≠ b.doctor_id)) :
    (1 ≤ (db.details.filter (fun d => d.drug_name == name)).length →
      (delete_drug db name).1 =
        .error (.conflict (db.details.filter (fun d => d.drug_name == name)).length) ∧
      (delete_drug db name).2 = db) ∧
    ((db.details.filter (fun d => d.drug_name == name)).length = 0 →
      (delete_drug db name).1 = .ok () ∧
      (∀ d, d ∈ (delete_drug db name).2.drugs ↔
        d ∈ db.drugs ∧ d.drug_name ≠ name) ∧
      (delete_drug db name).2.details = db.details ∧
      (delete_drug db name).2.doctors = db.doctors ∧
      (delete_drug db name).2.prescriptions = db.prescriptions) ∧
    (1 ≤ (db.prescriptions.filter (fun p => p.doctor_id == did)).length →
      (delete_doctor db did).1 =
        .error (.conflict (db.prescriptions.filter (fun p => p.doctor_id == did)).length) ∧
      (delete_doctor db did).2 = db) ∧
    ((db.prescriptions.filter (fun p => p.doctor_id == did)).length = 0 →
      (delete_doctor db did).1 = .ok () ∧
      (∀ x, x ∈ (delete_doctor db did).2.doctors ↔
        x ∈ db.doctors ∧ x.doctor_id ≠ did) ∧
      (delete_doctor db did).2.drugs = db.drugs ∧
      (delete_doctor db did).2.details = db.details ∧
      (delete_doctor db did).2.prescriptions = db.prescriptions) := by
  have hud' : db.drugs.Pairwise (fun a b =>
      ¬((a.drug_name == name) = true ∧ (b.drug_name == name) = true)) := by
    refine hud.imp ?_
    intro a b hab ⟨ha, hb⟩
    exact hab (by rw [eq_of_beq ha, eq_of_beq hb])
  have huc' : db.doctors.Pairwise (fun a b =>
      ¬((a.doctor_id == did) = true ∧ (b.doctor_id == did) = true)) := by
    refine huc.imp ?_
    intro a b hab ⟨ha, hb⟩
    exact hab (by rw [eq_of_beq ha, eq_of_beq hb])
  refine ⟨?_, ?_, ?_, ?_⟩
  · intro hlen
    have hne : (db.details.filter (fun d => d.drug_name == name)).isEmpty = false := by
      rw [List.isEmpty_eq_false]
      intro he
      rw [he] at hlen
      simp at hlen
    constructor <;> simp [delete_drug, hd, hne]
  · intro hlen
    have he : db.details.filter (fun d => d.drug_name == name) = [] :=
      List.length_eq_zero.mp hlen
    have hemp : (db.details.filter (fun d => d.drug_name == name)).isEmpty = true := by
      rw [he]
      rfl
    refine ⟨by simp [delete_drug, hd, hemp], ?_, by simp [delete_drug, hd, hemp],
      by simp [delete_drug, hd, hemp], by simp [delete_drug, hd, hemp]⟩
    intro d
    simp only [delete_drug, hd, hemp, if_true]
    rw [mem_eraseFirst_iff hud' d]
    constructor
    · rintro ⟨hx, hpx⟩
      refine ⟨hx, fun hxe => ?_⟩
      rw [hxe] at hpx
      simp at hpx
    · rintro ⟨hx, hne⟩
      refine ⟨hx, ?_⟩
      cases hbx : (d.drug_name == name) with
      | false => rfl
      | true => exact absurd (eq_of_beq hbx) hne
  · intro hlen
    have hne : (db.prescriptions.filter (fun p => p.doctor_id == did)).isEmpty = false := by
      rw [List.isEmpty_eq_false]
      intro he
      rw [he] at hlen
      simp at hlen
    constructor <;> simp [delete_doctor, hc, hne]
  · intro hlen
    have he : db.prescriptions.filter (fun p => p.doctor_id == did) = [] :=
      List.length_eq_zero.mp hlen
    have hemp : (db.prescriptions.filter (fun p => p.doctor_id == did)).isEmpty = true := by
      rw [he]
      rfl
    refine ⟨by simp [delete_doctor, hc, hemp], ?_, by simp [delete_doctor, hc, hemp],
      by simp [delete_doctor, hc, hemp], by simp [delete_doctor, hc, hemp]⟩
    intro x
    simp only [delete_doctor, hc, hemp, if_true]
    rw [mem_eraseFirst_iff huc' x]
    constructor
    · rintro ⟨hx, hpx⟩
      refine ⟨hx, fun hxe => ?_⟩
      rw [hxe] at hpx
      simp at hpx
    · rintro ⟨hx, hne⟩
      refine ⟨hx, ?_⟩
      cases hbx : (x.doctor_id == did) with
      | false => rfl
      | true => exact absurd (eq_of_beq hbx) hne

theorem C4_witness :
    (delete_drug dbW "Aspirin").1 = .error (.conflict 1) ∧
    (delete_drug dbW "Aspirin").2 = dbW ∧
    (delete_doctor dbW "D1").1 = .error (.conflict 1) ∧
    (delete_doctor dbW "D1").2 = dbW := by
  have h := C4_deletion_guard dbW "Aspirin" "D1" ⟨"Aspirin", 2, 10⟩
    ⟨"D1", "Alice"⟩ (by decide) (by decide) (by decide) (by decide)
  have h1 := h.1 (by decide)
  have h3 := h.2.2.1 (by decide)
  exact ⟨h1.1, h1.2, h3.1, h3.2⟩

/-- C5 (counterexample): from a state whose only drug has stock 10,
`update_drug` with a caller-supplied stock of -1 succeeds and leaves a drug
row with negative stock — the route copies `data['stock']` into the row with
no check, so the claimed invariant is not preserved by updateDrug (nor, the
same way, by addDrug) on arbitrary inputs. -/
theorem C5_counterexample :
    (∀ d ∈ dbW.drugs, 0 ≤ d.stock) ∧
    ¬ (∀ d ∈ (update_drug dbW "Aspirin" none (some (-1))).2.drugs, 0 ≤ d.stock) := by
  decide

/-- C5 (amended): non-negativity of every drug's stock is preserved by every
operation of the interface provided the stock values the caller supplies to
addDrug/updateDrug are themselves non-negative; all other operations —
`add_prescription_detail` in particular — preserve it unconditionally. -/
theorem C5_amended_stock_invariant (db : DB) (h : StocksNonneg db) :
    (∀ n p s, 0 ≤ s → StocksNonneg (add_drug db n p s).2) ∧
    (∀ n p s, (s = none ∨ ∃ v, s = some v ∧ 0 ≤ v) →
      StocksNonneg (update_drug db n p s).2) ∧
    (∀ n, StocksNonneg (delete_drug db n).2) ∧
    (∀ i m, StocksNonneg (add_doctor db i m).2) ∧
    (∀ i m, StocksNonneg (update_doctor db i m).2) ∧
    (∀ i, StocksNonneg (delete_doctor db i).2) ∧
    (∀ pid did, StocksNonneg (add_prescription db pid did).2) ∧
    (∀ pid, StocksNonneg (delete_prescription db pid).2) ∧
    (∀ pid dn q, StocksNonneg (add_prescription_detail db pid dn q).2) ∧
    (∀ pid, StocksNonneg (calculate_prescription db pid).2) := by
  refine ⟨?_, ?_, ?_, ?_, ?_, ?_, ?_, ?_, ?_, ?_⟩
  · intro n p s hs
    cases hfd : findDrug db n with
    | some drug => simpa [add_drug, hfd] using h
    | none =>
      intro d hd
      simp only [add_drug, hfd] at hd
      rw [List.mem_append] at hd
      rcases hd with hd | hd
      · exact h d hd
      · simp at hd
        rw [hd]
        exact hs
  · intro n p s hs
    cases hfd : findDrug db n with
    | none => simpa [update_drug, hfd] using h
    | some drug =>
      intro d hd
      simp only [update_drug, hfd] at hd
      rcases mem_replaceFirst hd with hmem | ⟨a, ha, hx⟩
      · exact h d hmem
      · have hamem : a ∈ db.drugs := List.mem_of_find?_eq_some ha
        rw [hx]
        rcases hs with hs | ⟨v, hv, hv0⟩
        · rw [hs]
          exact h a hamem
        · rw [hv]
          exact hv0
  · intro n
    cases hfd : findDrug db n with
    | none => simpa [delete_drug, hfd] using h
    | some drug =>
      by_cases hemp : (db.details.filter (fun d => d.drug_name == n)).isEmpty
      · intro d hd
        simp only [delete_drug, hfd, hemp, if_true] at hd
        exact h d (mem_of_mem_eraseFirst hd)
      · simpa [delete_drug, hfd, hemp] using h
  · intro i m
    cases hfd : findDoctor db i with
    | none => simpa [add_doctor, hfd] using h
    | some doc => simpa [add_doctor, hfd] using h
  · intro i m
    cases hfd : findDoctor db i with
    | none => simpa [update_doctor, hfd] using h
    | some doc => simpa [update_doctor, hfd] using h
  · intro i
    cases hfd : findDoctor db i with
    | none => simpa [delete_doctor, hfd] using h
    | some doc =>
      by_cases hemp : (db.prescriptions.filter (fun p => p.doctor_id == i)).isEmpty
      · simpa [delete_doctor, hfd, hemp] using h
      · simpa [delete_doctor, hfd, hemp] using h
  · intro pid did
    cases pid with
    | none => exact h
    | some pid =>
      by_cases hp : pid = ""
      · simpa [add_prescription, hp] using h
      · cases did with
        | none => simpa [add_prescription, hp] using h
        | some did =>
          by_cases hd2 : did = ""
          · simpa [add_prescription, hp, hd2] using h
          · cases hfp : findPrescription db pid with
            | some x => simpa [add_prescription, hp, hd2, hfp] using h
            | none =>
              cases hfd : findDoctor db did with
              | none => simpa [add_prescription, hp, hd2, hfp, hfd] using h
              | some doc => simpa [add_prescription, hp, hd2, hfp, hfd] using h
  · intro pid
    cases hfp : findPrescription db pid with
    | none => simpa [delete_prescription, hfp] using h
    | some p0 => simpa [delete_prescription, hfp] using h
  · intro pid dn q
    cases dn with
    | none => exact h
    | some dn =>
      by_cases hdn : dn = ""
      · simpa [add_prescription_detail, hdn] using h
      · cases q with
        | none => simpa [add_prescription_detail, hdn] using h
        | some q =>
          by_cases hq : q ≤ 0
          · simpa [add_prescription_detail, hdn, hq] using h
          · cases hfp : findPrescription db pid with
            | none => simpa [add_prescription_detail, hdn, hq, hfp] using h
            | some presc =>
              cases hfd : findDrug db dn with
              | none => simpa [add_prescription_detail, hdn, hq, hfp, hfd] using h
              | some drug =>
                by_cases hst : drug.stock < q
                · simpa [add_prescription_detail, hdn, hq, hfp, hfd, hst] using h
                · intro d hd
                  simp only [add_prescription_detail, hdn, hq, hfp, hfd, hst] at hd
                  rcases mem_replaceFirst hd with hmem | ⟨a, ha, hx⟩
                  · exact h d hmem
                  · have hd' : db.drugs.find? (fun x => x.drug_name == dn) =
                        some drug := hfd
                    rw [hd'] at ha
                    injection ha with ha
                    subst ha
                    rw [hx]
                    simpa using sub_nonneg.mpr (not_lt.mp hst)
  · intro pid
    cases hfp : findPrescription db pid with
    | none => simpa [calculate_prescription, hfp] using h
    | some p0 => simpa [calculate_prescription, hfp] using h

theorem C5_witness :
    StocksNonneg dbW ∧
    StocksNonneg (add_prescription_detail dbW "P1" (some "Aspirin") (some 4)).2 := by
  have h0 : StocksNonneg dbW := by
    show ∀ d ∈ dbW.drugs, 0 ≤ d.stock
    decide
  exact ⟨h0, (C5_amended_stock_invariant dbW h0).2.2.2.2.2.2.2.2.1 "P1"
    (some "Aspirin") (some 4)⟩

theorem retryAux_succ (func : Nat → Outcome α) (delay attempt remaining : Nat) :
    retryAux func delay attempt (remaining + 1) =
      match func attempt with
      | .ok a => some (.ok a, attempt + 1, delay * attempt)
      | .fatal e => some (.fatal e, attempt + 1, delay * attempt)
      | .transient =>
        if remaining = 0 then some (.transient, attempt + 1, delay * attempt)
        else retryAux func delay (attempt + 1) remaining := rfl

/-- C8: with the source's arguments (3 attempts, fixed delay 2), the wrapper
runs the unit of work at most 3 times; a success or a non-transient failure
on any attempt is surfaced at once, as itself, with no further attempt; only
the transient lost-connection failure causes a retry, each preceded by the
fixed delay; and after 3 consecutive transient failures the transient error
is what is surfaced (StorageUnavailable). -/
theorem C8_retry_policy {α : Type} (func : Nat → Outcome α) :
    (∃ out inv slept, execute_with_retry func 3 2 = some (out, inv, slept) ∧
      1 ≤ inv ∧ inv ≤ 3 ∧ slept = 2 * (inv - 1)) ∧
    (∀ a, func 0 = .ok a → execute_with_retry func 3 2 = some (.ok a, 1, 0)) ∧
    (∀ e, func 0 = .fatal e → execute_with_retry func 3 2 = some (.fatal e, 1, 0)) ∧
    (func 0 = .transient → ∀ a, func 1 = .ok a →
      execute_with_retry func 3 2 = some (.ok a, 2, 2)) ∧
    (func 0 = .transient → ∀ e, func 1 = .fatal e →
      execute_with_retry func 3 2 = some (.fatal e, 2, 2)) ∧
    (func 0 = .transient → func 1 = .transient → ∀ a, func 2 = .ok a →
      execute_with_retry func 3 2 = some (.ok a, 3, 4)) ∧
    (func 0 = .transient → func 1 = .transient → ∀ e, func 2 = .fatal e →
      execute_with_retry func 3 2 = some (.fatal e, 3, 4)) ∧
    (func 0 = .transient → func 1 = .transient → func 2 = .transient →
      execute_with_retry func 3 2 = some (.transient, 3, 4)) := by
  have h3 : (3 : Nat) = 2 + 1 := rfl
  have h2 : (2 : Nat) = 1 + 1 := rfl
  have h1 : (1 : Nat) = 0 + 1 := rfl
  have hmain : execute_with_retry func 3 2 =
      match func 0 with
      | .ok a => some (.ok a, 1, 0)
      | .fatal e => some (.fatal e, 1, 0)
      | .transient =>
        match func 1 with
        | .ok a => some (.ok a, 2, 2)
        | .fatal e => some (.fatal e, 2, 2)
        | .transient =>
          match func 2 with
          | .ok a => some (.ok a, 3, 4)
          | .fatal e => some (.fatal e, 3, 4)
          | .transient => some (.transient, 3, 4) := by
    rw [execute_with_retry, h3, retryAux_succ]
    cases func 0 with
    | ok a => rfl
    | fatal e => rfl
    | transient =>
      rw [if_neg (by decide), h2, retryAux_succ]
      cases func 1 with
      | ok a => rfl
      | fatal e => rfl
      | transient =>
        rw [if_neg (by decide), h1, retryAux_succ]
        cases func 2 with
        | ok a => rfl
        | fatal e => rfl
        | transient => rfl
  refine ⟨?_, ?_, ?_, ?_, ?_, ?_, ?_, ?_⟩
  · cases e0 : func 0 with
    | ok a => exact ⟨.ok a, 1, 0, by rw [hmain, e0], by decide, by decide, by decide⟩
    | fatal e => exact ⟨.fatal e, 1, 0, by rw [hmain, e0], by decide, by decide, by decide⟩
    | transient =>
      cases e1 : func 1 with
      | ok a => exact ⟨.ok a, 2, 2, by rw [hmain, e0, e1], by decide, by decide, by decide⟩
      | fatal e => exact ⟨.fatal e, 2, 2, by rw [hmain, e0, e1], by decide, by decide, by decide⟩
      | transient =>
        cases e2 : func 2 with
        | ok a => exact ⟨.ok a, 3, 4, by rw [hmain, e0, e1, e2], by decide, by decide, by decide⟩
        | fatal e => exact ⟨.fatal e, 3, 4, by rw [hmain, e0, e1, e2], by decide, by decide, by decide⟩
        | transient => exact ⟨.transient, 3, 4, by rw [hmain, e0, e1, e2], by decide, by decide, by decide⟩
  · intro a e0
    rw [hmain, e0]
  · intro e e0
    rw [hmain, e0]
  · intro e0 a e1
    rw [hmain, e0, e1]
  · intro e0 e e1
    rw [hmain, e0, e1]
  · intro e0 e1 a e2
    rw [hmain, e0, e1, e2]
  · intro e0 e1 e e2
    rw [hmain, e0, e1, e2]
  · intro e0 e1 e2
    rw [hmain, e0, e1, e2]

end Hospital
